import Mathlib

/-!
Verification of the enemy-selection and engagement logic of
`src/core/execution/utils/BotBehavior.ts` (OpenFrontIO).

The TypeScript class `BotBehavior` is embedded shallowly: its mutable fields
`enemy` / `enemyUpdated` become an explicit `BotState`, the world queries it
performs (`Player`, `Game`, `Config`) become a `World` record of snapshot data,
and the injected `PseudoRandom` becomes an explicit oracle.  JavaScript number
division is modelled exactly on rational operands (including the `NaN` and
`Infinity` results of dividing by zero) by the `JSNum` type, so that the
troop-density comparison loop behaves as in the source.
-/

namespace OpenFront

/-- Player type tags from the game model (`PlayerType` in Game.ts). -/
inductive PlayerType
  | Human
  | Bot
  | FakeHuman
deriving DecidableEq, Repr

/-- Modelled from the spec: the relation levels between two players
(Game.ts is not among the given sources).  The spec glossary lists the
levels Hostile, Neutral, Friendly; they are ordered (Hostile below
Neutral below Friendly), compared through their numeric index. -/
inductive Relation
  | Hostile
  | Neutral
  | Friendly
deriving DecidableEq, Repr

/-- Numeric index of a relation level, used for order comparisons. -/
def Relation.toIdx : Relation → Nat
  | .Hostile => 0
  | .Neutral => 1
  | .Friendly => 2

/-- The JavaScript number values that arise in `BotBehavior.ts`: an exact
rational, the two infinities, or `NaN`.  Troop counts and tile counts enter as
exact values; only division can produce the non-rational cases. -/
inductive JSNum
  | nan
  | posInf
  | negInf
  | rat (q : ℚ)
deriving DecidableEq

/-- JavaScript division `a / b` on exact rational operands:
`0/0` is `NaN`, `a/0` is `±Infinity` for `a ≠ 0`, otherwise exact. -/
def jsDiv (a b : ℚ) : JSNum :=
  if b = 0 then
    if a = 0 then .nan else if 0 < a then .posInf else .negInf
  else .rat (a / b)

/-- JavaScript strict `<` on the embedded number domain: every comparison
involving `NaN` is false, `Infinity < x` is always false. -/
def jsLt : JSNum → JSNum → Bool
  | .nan, _ => false
  | _, .nan => false
  | .negInf, .negInf => false
  | .negInf, _ => true
  | _, .negInf => false
  | .posInf, _ => false
  | .rat _, .posInf => true
  | .rat a, .rat b => decide (a < b)

/-- JavaScript `>=` on the embedded number domain: every comparison involving
`NaN` is false, `Infinity >= x` is true for non-`NaN` `x`. -/
def jsGe : JSNum → JSNum → Bool
  | .nan, _ => false
  | _, .nan => false
  | .posInf, _ => true
  | _, .posInf => false
  | _, .negInf => true
  | .negInf, _ => false
  | .rat a, .rat b => decide (b ≤ a)

/-- Snapshot of one adjacent entity as returned by `player.neighbors()`:
its identity, whether it is a player (vs. terra nullius border), its type
tag, troops, owned-tile count and traitor flag. -/
structure Neighbor where
  pid : Nat
  isPlayer : Bool
  ptype : PlayerType
  troops : ℚ
  numTilesOwned : Nat
  isTraitor : Bool
deriving DecidableEq, Repr

/-- One incoming attack: attacker identity and troop count
(`attack.attacker()`, `attack.troops()`). -/
structure Attack where
  attackerId : Nat
  troops : ℚ
deriving DecidableEq, Repr

/-- One entry of `player.allRelationsSorted()`: a player and the relation
level toward it. -/
structure RelEntry where
  pid : Nat
  relation : Relation
deriving DecidableEq, Repr

/-- Read-only world snapshot consumed by the controller during one tick:
the game clock, the controlled player's troops and troop cap, its neighbor
list, incoming attacks, hostility-sorted relation list, and the friendliness
query `player.isFriendly(p)` (ally or teammate). -/
structure World where
  ticks : Nat
  ownerTroops : ℚ
  maxTroops : ℚ
  neighbors : List Neighbor
  incomingAttacks : List Attack
  allRelationsSorted : List RelEntry
  isFriendly : Nat → Bool

/-- The immutable tuning of one `BotBehavior` instance. -/
structure BotBehavior where
  triggerRatio : ℚ
  reserveRatio : ℚ
  expandRatio : ℚ
deriving DecidableEq, Repr

/-- The controller's mutable memory: the fields `enemy` and `enemyUpdated`
of the `BotBehavior` class.  `enemyUpdated` is `none` while still undefined
(never assigned); in that case the staleness test `ticks - undefined > 100`
is `NaN > 100`, i.e. false, which the `none` branch mirrors. -/
structure BotState where
  enemy : Option Nat
  enemyUpdated : Option Nat
deriving DecidableEq, Repr

/-- The injected `PseudoRandom`, as an oracle: `chance odds i` is the outcome
of the i-th `chance(odds)` trial, `pick` drives `randElement`, and `shuffle`
is the permutation `shuffleArray` applies to the neighbor list this tick. -/
structure RandomOracle where
  chance : Nat → Nat → Bool
  pick : Nat
  shuffle : List Neighbor → List Neighbor

/-- `setNewEnemy(newEnemy)`: stores the enemy and stamps `enemyUpdated`
with the current tick. -/
def setNewEnemy (w : World) (_s : BotState) (pid : Nat) : BotState :=
  { enemy := some pid, enemyUpdated := some w.ticks }

/-- `clearEnemy()`: drops the enemy, leaving the timestamp untouched. -/
def clearEnemy (s : BotState) : BotState :=
  { s with enemy := none }

/-- `forgetOldEnemies()`: clears the enemy when
`game.ticks() - enemyUpdated > 100` (truncated subtraction agrees with the
source for all reachable states, where `enemyUpdated ≤ ticks`). -/
def forgetOldEnemies (w : World) (s : BotState) : BotState :=
  match s.enemyUpdated with
  | none => s
  | some t0 => if 100 < w.ticks - t0 then clearEnemy s else s

/-- `hasSufficientTroops()`: `troops / maxTroops >= triggerRatio` with
JavaScript division and comparison semantics. -/
def hasSufficientTroops (B : BotBehavior) (w : World) : Bool :=
  jsGe (jsDiv w.ownerTroops w.maxTroops) (JSNum.rat B.triggerRatio)

/-- The loop of `checkIncomingAttacks`: running largest troop count
(initially 0) and its attacker (initially undefined); an attack replaces the
running best only when its troops are strictly larger. -/
def findLargestAttacker : List Attack → ℚ → Option Nat → ℚ × Option Nat
  | [], largest, attacker => (largest, attacker)
  | a :: rest, largest, attacker =>
    if a.troops ≤ largest then findLargestAttacker rest largest attacker
    else findLargestAttacker rest a.troops (some a.attackerId)

/-- `checkIncomingAttacks()`: switch to the largest incoming attacker,
if the scan produced one. -/
def checkIncomingAttacks (w : World) (s : BotState) : BotState :=
  match (findLargestAttacker w.incomingAttacks 0 none).2 with
  | none => s
  | some pid => setNewEnemy w s pid

/-- The local `density` function of `selectEnemy`:
`p.troops() / p.numTilesOwned()` under JavaScript division. -/
def density (n : Neighbor) : JSNum :=
  jsDiv n.troops (n.numTilesOwned : ℚ)

/-- The troop density as an exact rational; equals `density` whenever the
neighbor owns at least one tile. -/
def ratDensity (n : Neighbor) : ℚ :=
  n.troops / (n.numTilesOwned : ℚ)

/-- The loop of `selectEnemy`'s bot-preference block: running lowest density
(initially `Infinity`) and its bot (initially undefined); a bot replaces the
running best only when its density is strictly lower under JavaScript `<`. -/
def findLowestDensityBot : List Neighbor → Option Neighbor → JSNum → Option Neighbor
  | [], best, _ => best
  | b :: rest, best, lowest =>
    if jsLt (density b) lowest then findLowestDensityBot rest (some b) (density b)
    else findLowestDensityBot rest best lowest

/-- The filter `selectEnemy` applies to `player.neighbors()`:
players of type Bot. -/
def botNeighbors (w : World) : List Neighbor :=
  w.neighbors.filter (fun n => n.isPlayer && n.ptype == PlayerType.Bot)

/-- The bot-preference block of `selectEnemy`: pick the adjacent Bot of
lowest troop density, if the loop found one.  (The `bots.length > 0` guard of
the source is subsumed: on an empty list the loop returns undefined.) -/
def selectEnemyDensityStep (w : World) (s : BotState) : BotState :=
  match findLowestDensityBot (botNeighbors w) none JSNum.posInf with
  | some b => setNewEnemy w s b.pid
  | none => s

/-- The most-hated block of `selectEnemy`: the top entry of
`allRelationsSorted()`, taken only when its relation is exactly Hostile. -/
def mostHatedStep (w : World) (s : BotState) : BotState :=
  match w.allRelationsSorted.head? with
  | some e => if e.relation = Relation.Hostile then setNewEnemy w s e.pid else s
  | none => s

/-- `enemySanityCheck()`: if the enemy is set and now friendly, clear it and
return null; otherwise return the current enemy. -/
def enemySanityCheck (w : World) (s : BotState) : BotState × Option Nat :=
  match s.enemy with
  | some e => if w.isFriendly e then (clearEnemy s, none) else (s, some e)
  | none => (s, none)

/-- The body of `selectEnemy` between the troop gate and the final sanity
check: density preference, then retaliation, then most-hated, each block
entered only while no enemy is set. -/
def selectEnemyCore (w : World) (s : BotState) : BotState :=
  let s1 := selectEnemyDensityStep w s
  let s2 := if s1.enemy = none then checkIncomingAttacks w s1 else s1
  if s2.enemy = none then mostHatedStep w s2 else s2

/-- `selectEnemy()`: with no enemy set, gate on troops (early return null),
run the three selection blocks, and finish with the sanity check; with an
enemy already set, only the sanity check runs. -/
def selectEnemy (B : BotBehavior) (w : World) (s : BotState) : BotState × Option Nat :=
  if s.enemy = none then
    if hasSufficientTroops B w then enemySanityCheck w (selectEnemyCore w s)
    else (s, none)
  else enemySanityCheck w s

/-- The shuffled-neighbor walk of `selectRandomEnemy`: skip non-players,
skip friendly neighbors, skip FakeHumans that pass a `chance(2)` trial
(consuming one oracle outcome), and otherwise overwrite the enemy; the loop
never breaks early.  Returns the state and the next oracle index. -/
def neighborWalk (w : World) (rnd : Nat → Nat → Bool) :
    List Neighbor → Nat → BotState → BotState × Nat
  | [], i, s => (s, i)
  | n :: rest, i, s =>
    if n.isPlayer = false then neighborWalk w rnd rest i s
    else if w.isFriendly n.pid then neighborWalk w rnd rest i s
    else if n.ptype = PlayerType.FakeHuman then
      if rnd 2 i then neighborWalk w rnd rest (i + 1) s
      else neighborWalk w rnd rest (i + 1) (setNewEnemy w s n.pid)
    else neighborWalk w rnd rest i (setNewEnemy w s n.pid)

/-- The neighbors of the walk that pass all filters and so call
`setNewEnemy`, in walk order (same threading of the chance oracle as
`neighborWalk`). -/
def walkQualifiers (w : World) (rnd : Nat → Nat → Bool) :
    List Neighbor → Nat → List Neighbor
  | [], _ => []
  | n :: rest, i =>
    if n.isPlayer = false then walkQualifiers w rnd rest i
    else if w.isFriendly n.pid then walkQualifiers w rnd rest i
    else if n.ptype = PlayerType.FakeHuman then
      if rnd 2 i then walkQualifiers w rnd rest (i + 1)
      else n :: walkQualifiers w rnd rest (i + 1)
    else n :: walkQualifiers w rnd rest i

/-- The chance-oracle index after the walk (one trial consumed per
FakeHuman player neighbor that is not friendly). -/
def walkChanceIdx (w : World) (rnd : Nat → Nat → Bool) :
    List Neighbor → Nat → Nat
  | [], i => i
  | n :: rest, i =>
    if n.isPlayer = false then walkChanceIdx w rnd rest i
    else if w.isFriendly n.pid then walkChanceIdx w rnd rest i
    else if n.ptype = PlayerType.FakeHuman then walkChanceIdx w rnd rest (i + 1)
    else walkChanceIdx w rnd rest i

/-- `getNeighborTraitorToAttack()`: a random element of the adjacent
traitor players, or null when there is none. -/
def getNeighborTraitorToAttack (w : World) (rnd : RandomOracle) : Option Nat :=
  let traitors := w.neighbors.filter (fun n => n.isPlayer && n.isTraitor)
  if 0 < traitors.length then (traitors.get? (rnd.pick % traitors.length)).map (fun n => n.pid)
  else none

/-- The traitor block of `selectRandomEnemy`: commit to a non-friendly
neighbor traitor on a `chance(3)` success (the trial runs only when the
traitor is not friendly, mirroring short-circuit `&&`). -/
def traitorStep (w : World) (rnd : RandomOracle) (i : Nat) (s : BotState) : BotState :=
  match getNeighborTraitorToAttack w rnd with
  | some t =>
    if w.isFriendly t then s
    else if rnd.chance 3 i then setNewEnemy w s t else s
  | none => s

/-- The body of `selectRandomEnemy` between the troop gate and the sanity
check: shuffled walk, then retaliation, then the traitor block. -/
def selectRandomEnemyCore (w : World) (rnd : RandomOracle) (s : BotState) : BotState :=
  let ws := neighborWalk w rnd.chance (rnd.shuffle w.neighbors) 0 s
  let s2 := if ws.1.enemy = none then checkIncomingAttacks w ws.1 else ws.1
  if s2.enemy = none then traitorStep w rnd ws.2 s2 else s2

/-- `selectRandomEnemy()`: with no enemy set, gate on troops (early return
null), run the randomized selection blocks, and finish with the sanity
check; with an enemy already set, only the sanity check runs.  (Its declared
return type admits TerraNullius, but every return value comes from
`enemySanityCheck` or is null, so a player option suffices.) -/
def selectRandomEnemy (B : BotBehavior) (w : World) (rnd : RandomOracle) (s : BotState) :
    BotState × Option Nat :=
  if s.enemy = none then
    if hasSufficientTroops B w then enemySanityCheck w (selectRandomEnemyCore w rnd s)
    else (s, none)
  else enemySanityCheck w s

/-- The target of `sendAttack`: a player or terra nullius. -/
inductive AttackTarget
  | player (pid : Nat)
  | terraNullius
deriving DecidableEq, Repr

/-- An emitted `AttackExecution` intent: troop count and target identity
(`none` encodes the terra-nullius identity). -/
structure AttackIntent where
  troops : ℚ
  targetId : Option Nat
deriving DecidableEq, Repr

/-- `sendAttack(target)`: refuse friendly player targets; otherwise keep a
reserve of `maxTroops * reserveRatio` (player target) or
`maxTroops * expandRatio` (terra nullius) and emit the surplus, unless it is
below 1. -/
def sendAttack (B : BotBehavior) (w : World) (target : AttackTarget) : Option AttackIntent :=
  match target with
  | .player pid =>
    if w.isFriendly pid then none
    else
      let targetTroops := w.maxTroops * B.reserveRatio
      let troops := w.ownerTroops - targetTroops
      if troops < 1 then none else some ⟨troops, some pid⟩
  | .terraNullius =>
    let targetTroops := w.maxTroops * B.expandRatio
    let troops := w.ownerTroops - targetTroops
    if troops < 1 then none else some ⟨troops, none⟩

/-- The data of one alliance request as `shouldAcceptAllianceRequest` reads
it: the player's relation toward the requestor, the requestor's traitor flag,
both tile counts, and the requestor's alliance count. -/
structure AllianceRequestInfo where
  requestorRelation : Relation
  requestorIsTraitor : Bool
  requestorNumTiles : Nat
  playerNumTiles : Nat
  requestorAllianceCount : Nat
deriving DecidableEq, Repr

/-- `shouldAcceptAllianceRequest(player, request)`: reject on malice, reject
traitors, accept a requestor more than three times larger, reject a
requestor with three or more alliances, accept otherwise. -/
def shouldAcceptAllianceRequest (r : AllianceRequestInfo) : Bool :=
  if r.requestorRelation.toIdx < Relation.Neutral.toIdx then false
  else if r.requestorIsTraitor then false
  else if r.playerNumTiles * 3 < r.requestorNumTiles then true
  else if 3 ≤ r.requestorAllianceCount then false
  else true

/-! ### Helper lemmas -/

lemma sanity_result (w : World) (s : BotState) :
    (enemySanityCheck w s).2 = none ∨
      ∃ p, (enemySanityCheck w s).2 = some p ∧ w.isFriendly p = false := by
  cases h : s.enemy with
  | none =>
    left
    simp [enemySanityCheck, h]
  | some e =>
    by_cases hf : w.isFriendly e = true
    · left
      simp [enemySanityCheck, h, hf]
    · right
      rw [Bool.not_eq_true] at hf
      exact ⟨e, by simp [enemySanityCheck, h, hf], hf⟩

lemma findLargestAttacker_const (l : List Attack) :
    ∀ (largest : ℚ) (att : Option Nat), (∀ a ∈ l, a.troops ≤ largest) →
      findLargestAttacker l largest att = (largest, att) := by
  induction l with
  | nil => intro largest att _; rfl
  | cons a rest ih =>
    intro largest att h
    have ha : a.troops ≤ largest := h a (List.mem_cons_self a rest)
    simp only [findLargestAttacker]
    rw [if_pos ha]
    exact ih largest att (fun x hx => h x (List.mem_cons_of_mem a hx))

lemma findLargestAttacker_first_max :
    ∀ (l : List Attack) (largest : ℚ) (att : Option Nat),
      (∃ a ∈ l, largest < a.troops) →
      ∃ l₁ a l₂, l = l₁ ++ a :: l₂ ∧
        findLargestAttacker l largest att = (a.troops, some a.attackerId) ∧
        largest < a.troops ∧
        (∀ x ∈ l₁, x.troops < a.troops) ∧
        (∀ x ∈ l, x.troops ≤ a.troops) := by
  intro l
  induction l with
  | nil =>
    intro largest att h
    simp at h
  | cons a rest ih =>
    intro largest att hex
    by_cases hle : a.troops ≤ largest
    · have hex2 : ∃ x ∈ rest, largest < x.troops := by
        rcases hex with ⟨x, hx, hlt⟩
        rcases List.mem_cons.mp hx with rfl | hx2
        · exact absurd hlt (not_lt.mpr hle)
        · exact ⟨x, hx2, hlt⟩
      rcases ih largest att hex2 with ⟨l₁, c, l₂, heq, hres, hlg, hstrict, hall⟩
      refine ⟨a :: l₁, c, l₂, by rw [List.cons_append, ← heq], ?_, hlg, ?_, ?_⟩
      · simp only [findLargestAttacker]
        rw [if_pos hle]
        exact hres
      · intro x hx
        rcases List.mem_cons.mp hx with rfl | hx2
        · exact lt_of_le_of_lt hle hlg
        · exact hstrict x hx2
      · intro x hx
        rcases List.mem_cons.mp hx with rfl | hx2
        · exact le_of_lt (lt_of_le_of_lt hle hlg)
        · exact hall x hx2
    · push_neg at hle
      by_cases hex2 : ∃ x ∈ rest, a.troops < x.troops
      · rcases ih a.troops (some a.attackerId) hex2 with
          ⟨l₁, c, l₂, heq, hres, hlg, hstrict, hall⟩
        refine ⟨a :: l₁, c, l₂, by rw [List.cons_append, ← heq], ?_,
          lt_trans hle hlg, ?_, ?_⟩
        · simp only [findLargestAttacker]
          rw [if_neg (not_le.mpr hle)]
          exact hres
        · intro x hx
          rcases List.mem_cons.mp hx with rfl | hx2
          · exact hlg
          · exact hstrict x hx2
        · intro x hx
          rcases List.mem_cons.mp hx with rfl | hx2
          · exact le_of_lt hlg
          · exact hall x hx2
      · push_neg at hex2
        refine ⟨[], a, rest, rfl, ?_, hle, ?_, ?_⟩
        · simp only [findLargestAttacker]
          rw [if_neg (not_le.mpr hle)]
          exact findLargestAttacker_const rest a.troops (some a.attackerId) hex2
        · intro x hx
          exact absurd hx (List.not_mem_nil x)
        · intro x hx
          rcases List.mem_cons.mp hx with rfl | hx2
          · exact le_refl _
          · exact hex2 x hx2

lemma jsLt_posInf_false (x : JSNum) : jsLt JSNum.posInf x = false := by
  cases x <;> rfl

lemma density_zero_cases (b : Neighbor) (h : b.numTilesOwned = 0) (h0 : 0 ≤ b.troops) :
    density b = JSNum.nan ∨ density b = JSNum.posInf := by
  unfold density jsDiv
  rw [h, Nat.cast_zero, if_pos rfl]
  by_cases ht : b.troops = 0
  · rw [if_pos ht]
    exact Or.inl rfl
  · rw [if_neg ht, if_pos (lt_of_le_of_ne h0 (Ne.symm ht))]
    exact Or.inr rfl

lemma jsLt_density_zero (b : Neighbor) (h : b.numTilesOwned = 0) (h0 : 0 ≤ b.troops)
    (lowest : JSNum) : jsLt (density b) lowest = false := by
  rcases density_zero_cases b h h0 with hd | hd <;> rw [hd]
  · cases lowest <;> rfl
  · exact jsLt_posInf_false lowest

lemma findLowestDensityBot_skip_zero :
    ∀ (l : List Neighbor), (∀ b ∈ l, b.numTilesOwned = 0) → (∀ b ∈ l, 0 ≤ b.troops) →
      ∀ (best : Option Neighbor) (lowest : JSNum),
        findLowestDensityBot l best lowest = best := by
  intro l
  induction l with
  | nil => intro _ _ best lowest; rfl
  | cons b rest ih =>
    intro hz h0 best lowest
    simp only [findLowestDensityBot]
    rw [if_neg (by
      rw [jsLt_density_zero b (hz b (List.mem_cons_self b rest))
        (h0 b (List.mem_cons_self b rest)) lowest]
      exact Bool.false_ne_true)]
    exact ih (fun x hx => hz x (List.mem_cons_of_mem b hx))
      (fun x hx => h0 x (List.mem_cons_of_mem b hx)) best lowest

lemma findLowestDensityBot_tiles :
    ∀ (l : List Neighbor) (best : Option Neighbor) (lowest : JSNum),
      (∀ b ∈ l, 0 ≤ b.troops) →
      (∀ b, best = some b → 0 < b.numTilesOwned) →
      ∀ c, findLowestDensityBot l best lowest = some c → 0 < c.numTilesOwned := by
  intro l
  induction l with
  | nil =>
    intro best lowest _ hbest c hc
    exact hbest c hc
  | cons b rest ih =>
    intro best lowest h0 hbest c hc
    simp only [findLowestDensityBot] at hc
    by_cases hlt : jsLt (density b) lowest = true
    · rw [if_pos hlt] at hc
      refine ih (some b) (density b) (fun x hx => h0 x (List.mem_cons_of_mem b hx)) ?_ c hc
      intro x hx
      have hxb : b = x := Option.some.inj hx
      subst hxb
      by_contra hzero
      push_neg at hzero
      have hz : b.numTilesOwned = 0 := Nat.le_zero.mp hzero
      rw [jsLt_density_zero b hz (h0 b (List.mem_cons_self b rest)) lowest] at hlt
      exact Bool.false_ne_true hlt
    · rw [if_neg hlt] at hc
      exact ih best lowest (fun x hx => h0 x (List.mem_cons_of_mem b hx)) hbest c hc

lemma densityStep_all_zero (w : World) (s : BotState)
    (hz : ∀ b ∈ botNeighbors w, b.numTilesOwned = 0)
    (h0 : ∀ b ∈ botNeighbors w, 0 ≤ b.troops) :
    selectEnemyDensityStep w s = s := by
  unfold selectEnemyDensityStep
  rw [findLowestDensityBot_skip_zero (botNeighbors w) hz h0 none JSNum.posInf]

/-! ### Claim theorems -/

/-- C1: the sanity check never returns a friendly enemy — if the current
enemy is friendly it is cleared and null is returned — and since
`selectEnemy` and `selectRandomEnemy` end by calling it (or return null
early), neither ever returns a friendly player. -/
theorem enemySanityCheck_no_friendly (B : BotBehavior) (w : World) (rnd : RandomOracle)
    (s : BotState) :
    ((enemySanityCheck w s).2 = none ∨
      ∃ p, (enemySanityCheck w s).2 = some p ∧ w.isFriendly p = false) ∧
    ((selectEnemy B w s).2 = none ∨
      ∃ p, (selectEnemy B w s).2 = some p ∧ w.isFriendly p = false) ∧
    ((selectRandomEnemy B w rnd s).2 = none ∨
      ∃ p, (selectRandomEnemy B w rnd s).2 = some p ∧ w.isFriendly p = false) := by
  refine ⟨sanity_result w s, ?_, ?_⟩
  · unfold selectEnemy
    by_cases h1 : s.enemy = none
    · rw [if_pos h1]
      by_cases h2 : hasSufficientTroops B w = true
      · rw [if_pos h2]
        exact sanity_result w _
      · rw [if_neg h2]
        exact Or.inl rfl
    · rw [if_neg h1]
      exact sanity_result w s
  · unfold selectRandomEnemy
    by_cases h1 : s.enemy = none
    · rw [if_pos h1]
      by_cases h2 : hasSufficientTroops B w = true
      · rw [if_pos h2]
        exact sanity_result w _
      · rw [if_neg h2]
        exact Or.inl rfl
    · rw [if_neg h1]
      exact sanity_result w s

/-- C2: an enemy set at tick t0 and untouched since persists through every
tick with `ticks - t0 ≤ 100` and is cleared by `forgetOldEnemies` at the
first tick with `ticks - t0 > 100` (the timestamp itself is not erased). -/
theorem forgetOldEnemies_exact_expiry (w : World) (e t0 : Nat) :
    (w.ticks - t0 ≤ 100 →
      forgetOldEnemies w ⟨some e, some t0⟩ = ⟨some e, some t0⟩) ∧
    (100 < w.ticks - t0 →
      forgetOldEnemies w ⟨some e, some t0⟩ = ⟨none, some t0⟩) := by
  constructor
  · intro h
    simp only [forgetOldEnemies]
    rw [if_neg (by omega)]
  · intro h
    simp only [forgetOldEnemies]
    rw [if_pos h]
    rfl

/-- Witness for C2 at ticks 100 and 101 with the enemy set at tick 0. -/
theorem forgetOldEnemies_exact_expiry_w :
    forgetOldEnemies ⟨100, 0, 0, [], [], [], fun _ => false⟩ ⟨some 7, some 0⟩
        = ⟨some 7, some 0⟩ ∧
    forgetOldEnemies ⟨101, 0, 0, [], [], [], fun _ => false⟩ ⟨some 7, some 0⟩
        = ⟨none, some 0⟩ :=
  ⟨(forgetOldEnemies_exact_expiry ⟨100, 0, 0, [], [], [], fun _ => false⟩ 7 0).1 (by decide),
   (forgetOldEnemies_exact_expiry ⟨101, 0, 0, [], [], [], fun _ => false⟩ 7 0).2 (by decide)⟩

/-- C6: with no enemy set and insufficient troops, both selection methods
return null and leave the controller state unchanged. -/
theorem no_selection_when_insufficient (B : BotBehavior) (w : World) (rnd : RandomOracle)
    (s : BotState) (h1 : s.enemy = none) (h2 : hasSufficientTroops B w = false) :
    selectEnemy B w s = (s, none) ∧ selectRandomEnemy B w rnd s = (s, none) := by
  constructor
  · unfold selectEnemy
    rw [if_pos h1, if_neg (by rw [h2]; exact Bool.false_ne_true)]
  · unfold selectRandomEnemy
    rw [if_pos h1, if_neg (by rw [h2]; exact Bool.false_ne_true)]

/-- Witness for C6: trigger ratio 1 with an empty troop reserve. -/
theorem no_selection_when_insufficient_w :
    selectEnemy ⟨1, 0, 0⟩ ⟨0, 0, 1, [], [], [], fun _ => false⟩ ⟨none, none⟩
        = (⟨none, none⟩, none) ∧
    selectRandomEnemy ⟨1, 0, 0⟩ ⟨0, 0, 1, [], [], [], fun _ => false⟩
        ⟨fun _ _ => false, 0, fun l => l⟩ ⟨none, none⟩ = (⟨none, none⟩, none) :=
  no_selection_when_insufficient ⟨1, 0, 0⟩ ⟨0, 0, 1, [], [], [], fun _ => false⟩
    ⟨fun _ _ => false, 0, fun l => l⟩ ⟨none, none⟩ rfl
    (by norm_num [hasSufficientTroops, jsDiv, jsGe])

/-- C7: the alliance-request rules apply in strict priority order — malice
always rejects, the 3x-size override always accepts a non-traitor with
relation at least Neutral, three or more alliances without the size override
always reject, and everything else is accepted. -/
theorem shouldAcceptAllianceRequest_priority (r : AllianceRequestInfo) :
    (r.requestorRelation.toIdx < Relation.Neutral.toIdx →
      shouldAcceptAllianceRequest r = false) ∧
    (r.requestorIsTraitor = false →
      Relation.Neutral.toIdx ≤ r.requestorRelation.toIdx →
      r.playerNumTiles * 3 < r.requestorNumTiles →
      shouldAcceptAllianceRequest r = true) ∧
    (3 ≤ r.requestorAllianceCount → r.requestorNumTiles ≤ r.playerNumTiles * 3 →
      shouldAcceptAllianceRequest r = false) ∧
    (Relation.Neutral.toIdx ≤ r.requestorRelation.toIdx →
      r.requestorIsTraitor = false →
      (r.playerNumTiles * 3 < r.requestorNumTiles ∨ r.requestorAllianceCount < 3) →
      shouldAcceptAllianceRequest r = true) := by
  refine ⟨?_, ?_, ?_, ?_⟩
  · intro h
    unfold shouldAcceptAllianceRequest
    rw [if_pos h]
  · intro ht hn hsz
    unfold shouldAcceptAllianceRequest
    rw [if_neg (by omega), if_neg (by rw [ht]; exact Bool.false_ne_true), if_pos hsz]
  · intro ha hsz
    unfold shouldAcceptAllianceRequest
    split_ifs with g1 g2 g3
    · rfl
    · rfl
    · exfalso; omega
    · rfl
  · intro hn ht hor
    unfold shouldAcceptAllianceRequest
    split_ifs with g1 g2 g3 g4
    · exfalso; omega
    · rw [ht] at g2; exact absurd g2 Bool.false_ne_true
    · rfl
    · exfalso
      rcases hor with h | h
      · omega
      · omega
    · rfl

/-- Witness for C7: a hostile requestor four times larger is still rejected;
a neutral non-traitor requestor four times larger holding three alliances is
still accepted; three alliances without the size override reject; an
ordinary neutral small requestor is accepted. -/
theorem shouldAcceptAllianceRequest_priority_w :
    shouldAcceptAllianceRequest ⟨Relation.Hostile, false, 40, 10, 0⟩ = false ∧
    shouldAcceptAllianceRequest ⟨Relation.Neutral, false, 40, 10, 3⟩ = true ∧
    shouldAcceptAllianceRequest ⟨Relation.Friendly, false, 10, 10, 3⟩ = false ∧
    shouldAcceptAllianceRequest ⟨Relation.Neutral, false, 10, 10, 0⟩ = true :=
  ⟨(shouldAcceptAllianceRequest_priority ⟨Relation.Hostile, false, 40, 10, 0⟩).1 (by decide),
   (shouldAcceptAllianceRequest_priority ⟨Relation.Neutral, false, 40, 10, 3⟩).2.1 rfl
     (by decide) (by decide),
   (shouldAcceptAllianceRequest_priority ⟨Relation.Friendly, false, 10, 10, 3⟩).2.2.1
     (by decide) (by decide),
   (shouldAcceptAllianceRequest_priority ⟨Relation.Neutral, false, 10, 10, 0⟩).2.2.2
     (by decide) rfl (Or.inr (by decide))⟩

/-- C8: `sendAttack` refuses friendly player targets; otherwise it keeps a
reserve floor of `maxTroops * reserveRatio` (player) or
`maxTroops * expandRatio` (terra nullius), emits nothing when the surplus is
below 1, and otherwise emits exactly one intent carrying exactly the
surplus; with exactly reserve-floor + 1 troops the intent carries 1 troop. -/
theorem sendAttack_reserve_floor (B : BotBehavior) (w : World) (pid : Nat) :
    (w.isFriendly pid = true → sendAttack B w (.player pid) = none) ∧
    (w.isFriendly pid = false →
      w.ownerTroops - w.maxTroops * B.reserveRatio < 1 →
      sendAttack B w (.player pid) = none) ∧
    (w.isFriendly pid = false →
      1 ≤ w.ownerTroops - w.maxTroops * B.reserveRatio →
      sendAttack B w (.player pid) =
        some ⟨w.ownerTroops - w.maxTroops * B.reserveRatio, some pid⟩) ∧
    (w.ownerTroops - w.maxTroops * B.expandRatio < 1 →
      sendAttack B w .terraNullius = none) ∧
    (1 ≤ w.ownerTroops - w.maxTroops * B.expandRatio →
      sendAttack B w .terraNullius =
        some ⟨w.ownerTroops - w.maxTroops * B.expandRatio, none⟩) ∧
    (w.isFriendly pid = false →
      w.ownerTroops = w.maxTroops * B.reserveRatio + 1 →
      sendAttack B w (.player pid) = some ⟨1, some pid⟩) := by
  refine ⟨?_, ?_, ?_, ?_, ?_, ?_⟩
  · intro hf
    simp [sendAttack, hf]
  · intro hf h
    simp [sendAttack, hf, h]
  · intro hf h
    simp [sendAttack, hf, not_lt.mpr h]
  · intro h
    simp [sendAttack, h]
  · intro h
    simp [sendAttack, not_lt.mpr h]
  · intro hf h
    have h1 : w.ownerTroops - w.maxTroops * B.reserveRatio = 1 := by rw [h]; ring
    simp [sendAttack, hf, h1, lt_self_iff_false]

/-- Witness for C8: with a troop cap of 10, a reserve ratio of 1/2 and
6 troops, the attack on player 0 carries exactly 1 troop; with 5 troops it
is refused. -/
theorem sendAttack_reserve_floor_w :
    sendAttack ⟨0, 1/2, 1/2⟩ ⟨0, 6, 10, [], [], [], fun _ => false⟩ (.player 0)
        = some ⟨1, some 0⟩ ∧
    sendAttack ⟨0, 1/2, 1/2⟩ ⟨0, 5, 10, [], [], [], fun _ => false⟩ (.player 0)
        = none :=
  ⟨(sendAttack_reserve_floor ⟨0, 1/2, 1/2⟩ ⟨0, 6, 10, [], [], [], fun _ => false⟩ 0).2.2.2.2.2
     rfl (by norm_num),
   (sendAttack_reserve_floor ⟨0, 1/2, 1/2⟩ ⟨0, 5, 10, [], [], [], fun _ => false⟩ 0).2.1
     rfl (by norm_num)⟩

/-- C10: when every incoming attack has a non-positive troop count, the
retaliation helper leaves the controller state unchanged — the running
maximum starts at 0 and only strictly larger troop counts replace it. -/
theorem nonpositive_attacks_noop (w : World) (s : BotState)
    (h : ∀ a ∈ w.incomingAttacks, a.troops ≤ 0) :
    checkIncomingAttacks w s = s := by
  unfold checkIncomingAttacks
  rw [findLargestAttacker_const w.incomingAttacks 0 none h]

/-- Witness for C10: two incoming attacks with troop counts 0 and -3
leave the state unchanged. -/
theorem nonpositive_attacks_noop_w :
    checkIncomingAttacks ⟨5, 0, 0, [], [⟨1, 0⟩, ⟨2, -3⟩], [], fun _ => false⟩
        ⟨none, none⟩ = ⟨none, none⟩ :=
  nonpositive_attacks_noop ⟨5, 0, 0, [], [⟨1, 0⟩, ⟨2, -3⟩], [], fun _ => false⟩
    ⟨none, none⟩ (by decide)

/-- C5: the retaliation helper is a no-op without incoming attacks, and when
an attack with positive troops exists it sets as enemy the attacker with the
strictly largest troop count, the first one found winning ties. -/
theorem checkIncomingAttacks_largest_first (w : World) (s : BotState) :
    (w.incomingAttacks = [] → checkIncomingAttacks w s = s) ∧
    ((∃ a ∈ w.incomingAttacks, 0 < a.troops) →
      ∃ l₁ a l₂, w.incomingAttacks = l₁ ++ a :: l₂ ∧
        checkIncomingAttacks w s = setNewEnemy w s a.attackerId ∧
        (∀ x ∈ l₁, x.troops < a.troops) ∧
        (∀ x ∈ w.incomingAttacks, x.troops ≤ a.troops)) := by
  constructor
  · intro h
    unfold checkIncomingAttacks
    rw [h]
    rfl
  · intro hex
    rcases findLargestAttacker_first_max w.incomingAttacks 0 none hex with
      ⟨l₁, a, l₂, heq, hres, _, hstrict, hall⟩
    refine ⟨l₁, a, l₂, heq, ?_, hstrict, hall⟩
    unfold checkIncomingAttacks
    rw [hres]

/-- Witness for C5: attackers 1 and 2 with troop counts 10 and 25; the
25-troop attacker (id 2) becomes the enemy. -/
theorem checkIncomingAttacks_largest_first_w :
    (∃ l₁ a l₂, ([⟨1, 10⟩, ⟨2, 25⟩] : List Attack) = l₁ ++ a :: l₂ ∧
      checkIncomingAttacks ⟨5, 0, 0, [], [⟨1, 10⟩, ⟨2, 25⟩], [], fun _ => false⟩ ⟨none, none⟩
          = setNewEnemy ⟨5, 0, 0, [], [⟨1, 10⟩, ⟨2, 25⟩], [], fun _ => false⟩
              ⟨none, none⟩ a.attackerId ∧
      (∀ x ∈ l₁, x.troops < a.troops) ∧
      (∀ x ∈ ([⟨1, 10⟩, ⟨2, 25⟩] : List Attack), x.troops ≤ a.troops)) ∧
    checkIncomingAttacks ⟨5, 0, 0, [], [], [], fun _ => false⟩ ⟨none, none⟩ = ⟨none, none⟩ :=
  ⟨(checkIncomingAttacks_largest_first
      ⟨5, 0, 0, [], [⟨1, 10⟩, ⟨2, 25⟩], [], fun _ => false⟩ ⟨none, none⟩).2
      ⟨⟨1, 10⟩, by decide, by decide⟩,
   (checkIncomingAttacks_largest_first
      ⟨5, 0, 0, [], [], [], fun _ => false⟩ ⟨none, none⟩).1 rfl⟩

/-- C9: an adjacent Bot with zero owned tiles is never the result of the
density search (its density, `NaN` or `Infinity`, never wins the strict
JavaScript comparison), and when every adjacent Bot owns zero tiles the
density step changes nothing and `selectEnemy` falls through to the
retaliation step. -/
theorem zero_tile_bots_excluded (B : BotBehavior) (w : World) (s : BotState)
    (h0 : ∀ b ∈ botNeighbors w, 0 ≤ b.troops) :
    (∀ c, findLowestDensityBot (botNeighbors w) none JSNum.posInf = some c →
        0 < c.numTilesOwned) ∧
    ((∀ b ∈ botNeighbors w, b.numTilesOwned = 0) → selectEnemyDensityStep w s = s) ∧
    ((∀ b ∈ botNeighbors w, b.numTilesOwned = 0) → s.enemy = none →
      hasSufficientTroops B w = true →
      selectEnemy B w s =
        enemySanityCheck w
          (if (checkIncomingAttacks w s).enemy = none
            then mostHatedStep w (checkIncomingAttacks w s)
            else checkIncomingAttacks w s)) := by
  refine ⟨?_, ?_, ?_⟩
  · exact fun c hc =>
      findLowestDensityBot_tiles (botNeighbors w) none JSNum.posInf h0
        (fun b hb => Option.noConfusion hb) c hc
  · intro hz
    exact densityStep_all_zero w s hz h0
  · intro hz h1 h2
    unfold selectEnemy
    rw [if_pos h1, if_pos h2]
    have hcore : selectEnemyCore w s =
        (if (checkIncomingAttacks w s).enemy = none
          then mostHatedStep w (checkIncomingAttacks w s)
          else checkIncomingAttacks w s) := by
      unfold selectEnemyCore
      rw [densityStep_all_zero w s hz h0]
      simp [h1]
    rw [hcore]

/-- Witness for C9: a lone adjacent Bot with 5 troops and no tiles is not
selected; with one incoming attack, selection falls through to retaliation. -/
theorem zero_tile_bots_excluded_w :
    selectEnemy ⟨0, 0, 0⟩
      ⟨0, 1, 1, [⟨3, true, PlayerType.Bot, 5, 0, false⟩], [⟨9, 4⟩], [],
        fun _ => false⟩ ⟨none, none⟩ =
      enemySanityCheck ⟨0, 1, 1, [⟨3, true, PlayerType.Bot, 5, 0, false⟩], [⟨9, 4⟩], [],
          fun _ => false⟩
        (if (checkIncomingAttacks ⟨0, 1, 1, [⟨3, true, PlayerType.Bot, 5, 0, false⟩],
              [⟨9, 4⟩], [], fun _ => false⟩ ⟨none, none⟩).enemy = none
          then mostHatedStep ⟨0, 1, 1, [⟨3, true, PlayerType.Bot, 5, 0, false⟩], [⟨9, 4⟩], [],
              fun _ => false⟩
            (checkIncomingAttacks ⟨0, 1, 1, [⟨3, true, PlayerType.Bot, 5, 0, false⟩],
              [⟨9, 4⟩], [], fun _ => false⟩ ⟨none, none⟩)
          else checkIncomingAttacks ⟨0, 1, 1, [⟨3, true, PlayerType.Bot, 5, 0, false⟩],
              [⟨9, 4⟩], [], fun _ => false⟩ ⟨none, none⟩) :=
  (zero_tile_bots_excluded ⟨0, 0, 0⟩
      ⟨0, 1, 1, [⟨3, true, PlayerType.Bot, 5, 0, false⟩], [⟨9, 4⟩], [], fun _ => false⟩
      ⟨none, none⟩ (by decide)).2.2 (by decide) rfl
      (by norm_num [hasSufficientTroops, jsDiv, jsGe])

lemma density_pos_tiles (b : Neighbor) (h : 0 < b.numTilesOwned) :
    density b = JSNum.rat (ratDensity b) := by
  unfold density jsDiv ratDensity
  rw [if_neg (Nat.cast_pos.mpr h).ne']

lemma findLowestDensityBot_first_min :
    ∀ (l : List Neighbor) (b : Neighbor), 0 < b.numTilesOwned →
      (∀ x ∈ l, 0 < x.numTilesOwned) →
      ∃ l₁ c l₂, b :: l = l₁ ++ c :: l₂ ∧
        findLowestDensityBot l (some b) (density b) = some c ∧
        (∀ x ∈ l₁, ratDensity c < ratDensity x) ∧
        (∀ x ∈ b :: l, ratDensity c ≤ ratDensity x) := by
  intro l
  induction l with
  | nil =>
    intro b _ _
    refine ⟨[], b, [], rfl, rfl, ?_, ?_⟩
    · intro x hx
      exact absurd hx (List.not_mem_nil x)
    · intro x hx
      rw [List.mem_singleton.mp hx]
  | cons x rest ih =>
    intro b hb hall
    have hx : 0 < x.numTilesOwned := hall x (List.mem_cons_self x rest)
    have hrest : ∀ y ∈ rest, 0 < y.numTilesOwned :=
      fun y hy => hall y (List.mem_cons_of_mem x hy)
    by_cases hlt : ratDensity x < ratDensity b
    · have hcond : jsLt (density x) (density b) = true := by
        rw [density_pos_tiles x hx, density_pos_tiles b hb]
        exact decide_eq_true hlt
      rcases ih x hx hrest with ⟨l₁, c, l₂, heq, hres, hstrict, hle⟩
      have hcx : ratDensity c ≤ ratDensity x := hle x (List.mem_cons_self x rest)
      refine ⟨b :: l₁, c, l₂, by rw [List.cons_append, ← heq], ?_, ?_, ?_⟩
      · simp only [findLowestDensityBot]
        rw [if_pos hcond]
        exact hres
      · intro y hy
        rcases List.mem_cons.mp hy with rfl | hy2
        · exact lt_of_le_of_lt hcx hlt
        · exact hstrict y hy2
      · intro y hy
        rcases List.mem_cons.mp hy with rfl | hy2
        · exact le_of_lt (lt_of_le_of_lt hcx hlt)
        · exact hle y hy2
    · have hcond : jsLt (density x) (density b) = false := by
        rw [density_pos_tiles x hx, density_pos_tiles b hb]
        exact decide_eq_false hlt
      have hbx : ratDensity b ≤ ratDensity x := not_lt.mp hlt
      rcases ih b hb hrest with ⟨l₁, c, l₂, heq, hres, hstrict, hle⟩
      have hgoal : findLowestDensityBot (x :: rest) (some b) (density b) = some c := by
        simp only [findLowestDensityBot]
        rw [hcond]
        simp only [Bool.false_eq_true, if_false]
        exact hres
      cases l₁ with
      | nil =>
        simp only [List.nil_append] at heq
        have hbc : b = c := (List.cons.injEq _ _ _ _ ▸ heq).1
        subst hbc
        refine ⟨[], b, x :: rest, rfl, hgoal, ?_, ?_⟩
        · intro y hy
          exact absurd hy (List.not_mem_nil y)
        · intro y hy
          rcases List.mem_cons.mp hy with rfl | hy2
          · exact le_refl _
          · rcases List.mem_cons.mp hy2 with rfl | hy3
            · exact hbx
            · exact hle y (List.mem_cons_of_mem b hy3)
      | cons b2 t =>
        rw [List.cons_append] at heq
        have hb2 : b = b2 := (List.cons.injEq _ _ _ _ ▸ heq).1
        have ht : rest = t ++ c :: l₂ := (List.cons.injEq _ _ _ _ ▸ heq).2
        subst hb2
        have hcb : ratDensity c < ratDensity b := hstrict b (List.mem_cons_self b t)
        refine ⟨b :: x :: t, c, l₂, ?_, hgoal, ?_, ?_⟩
        · rw [ht, List.cons_append, List.cons_append]
        · intro y hy
          rcases List.mem_cons.mp hy with rfl | hy2
          · exact hcb
          · rcases List.mem_cons.mp hy2 with rfl | hy3
            · exact lt_of_lt_of_le hcb hbx
            · exact hstrict y (List.mem_cons_of_mem b hy3)
        · intro y hy
          rcases List.mem_cons.mp hy with rfl | hy2
          · exact le_of_lt hcb
          · rcases List.mem_cons.mp hy2 with rfl | hy3
            · exact le_of_lt (lt_of_lt_of_le hcb hbx)
            · exact hle y (List.mem_cons_of_mem b hy3)

/-- C3: with no enemy set, sufficient troops, positive tile counts and at
least one adjacent Bot, `selectEnemy` sets as new enemy the adjacent Bot of
minimum troop density (troops divided by owned tiles), the earliest
enumerated one winning ties; the sanity check then passes it through unless
it happens to be friendly. -/
theorem selectEnemy_lowest_density_first_seen (B : BotBehavior) (w : World) (s : BotState)
    (h1 : s.enemy = none) (h2 : hasSufficientTroops B w = true)
    (h3 : botNeighbors w ≠ []) (h4 : ∀ b ∈ botNeighbors w, 0 < b.numTilesOwned) :
    ∃ l₁ c l₂, botNeighbors w = l₁ ++ c :: l₂ ∧
      (∀ x ∈ l₁, ratDensity c < ratDensity x) ∧
      (∀ x ∈ botNeighbors w, ratDensity c ≤ ratDensity x) ∧
      selectEnemy B w s =
        (if w.isFriendly c.pid = true
          then (⟨none, some w.ticks⟩, none)
          else (⟨some c.pid, some w.ticks⟩, some c.pid)) := by
  rcases hlist : botNeighbors w with _ | ⟨b0, rest⟩
  · exact absurd hlist h3
  · have hb0 : 0 < b0.numTilesOwned := h4 b0 (by rw [hlist]; exact List.mem_cons_self b0 rest)
    have hrest : ∀ x ∈ rest, 0 < x.numTilesOwned :=
      fun x hxm => h4 x (by rw [hlist]; exact List.mem_cons_of_mem b0 hxm)
    rcases findLowestDensityBot_first_min rest b0 hb0 hrest with
      ⟨l₁, c, l₂, heq, hres, hstrict, hle⟩
    refine ⟨l₁, c, l₂, heq, hstrict, hle, ?_⟩
    have hstep : selectEnemyDensityStep w s = ⟨some c.pid, some w.ticks⟩ := by
      unfold selectEnemyDensityStep
      rw [hlist]
      simp only [findLowestDensityBot]
      rw [if_pos (by rw [density_pos_tiles b0 hb0]; rfl), hres]
      rfl
    unfold selectEnemy
    rw [if_pos h1, if_pos h2]
    have hcore : selectEnemyCore w s = ⟨some c.pid, some w.ticks⟩ := by
      unfold selectEnemyCore
      rw [hstep]
      simp
    rw [hcore]
    unfold enemySanityCheck
    by_cases hf : w.isFriendly c.pid = true
    · rw [if_pos hf]
      simp [hf, clearEnemy]
    · rw [if_neg hf]
      simp [hf]

/-- Witness for C3: two adjacent Bots with densities 5 and 2; the
density-2 Bot (id 2) is selected as the enemy. -/
theorem selectEnemy_lowest_density_first_seen_w :
    ∃ l₁ c l₂,
      botNeighbors ⟨0, 1, 1, [⟨1, true, PlayerType.Bot, 5, 1, false⟩,
          ⟨2, true, PlayerType.Bot, 2, 1, false⟩], [], [], fun _ => false⟩ = l₁ ++ c :: l₂ ∧
      (∀ x ∈ l₁, ratDensity c < ratDensity x) ∧
      (∀ x ∈ botNeighbors ⟨0, 1, 1, [⟨1, true, PlayerType.Bot, 5, 1, false⟩,
          ⟨2, true, PlayerType.Bot, 2, 1, false⟩], [], [], fun _ => false⟩,
        ratDensity c ≤ ratDensity x) ∧
      selectEnemy ⟨0, 0, 0⟩ ⟨0, 1, 1, [⟨1, true, PlayerType.Bot, 5, 1, false⟩,
          ⟨2, true, PlayerType.Bot, 2, 1, false⟩], [], [], fun _ => false⟩ ⟨none, none⟩ =
        (if (⟨0, 1, 1, [⟨1, true, PlayerType.Bot, 5, 1, false⟩,
              ⟨2, true, PlayerType.Bot, 2, 1, false⟩], [], [],
              fun _ => false⟩ : World).isFriendly c.pid = true
          then (⟨none, some 0⟩, none)
          else (⟨some c.pid, some 0⟩, some c.pid)) :=
  selectEnemy_lowest_density_first_seen ⟨0, 0, 0⟩
    ⟨0, 1, 1, [⟨1, true, PlayerType.Bot, 5, 1, false⟩,
      ⟨2, true, PlayerType.Bot, 2, 1, false⟩], [], [], fun _ => false⟩
    ⟨none, none⟩ rfl (by norm_num [hasSufficientTroops, jsDiv, jsGe])
    (by decide) (by decide)

lemma mem_of_getLast?_eq {α : Type} {l : List α} {a : α} (h : l.getLast? = some a) :
    a ∈ l := by
  have hmem : a ∈ l.getLast? := by rw [Option.mem_def]; exact h
  rcases List.mem_getLast?_eq_getLast hmem with ⟨hne, heq⟩
  rw [heq]
  exact List.getLast_mem hne

lemma neighborWalk_eq_qualifiers (w : World) (rnd : Nat → Nat → Bool) :
    ∀ (l : List Neighbor) (i : Nat) (s : BotState),
      neighborWalk w rnd l i s =
        ((match (walkQualifiers w rnd l i).getLast? with
          | none => s
          | some n => setNewEnemy w s n.pid),
         walkChanceIdx w rnd l i) := by
  intro l
  induction l with
  | nil => intro i s; rfl
  | cons n rest ih =>
    intro i s
    simp only [neighborWalk, walkQualifiers, walkChanceIdx]
    split_ifs with hp hf hfh hc
    · exact ih i s
    · exact ih i s
    · exact ih (i + 1) s
    · rw [ih (i + 1) (setNewEnemy w s n.pid)]
      cases hqs : walkQualifiers w rnd rest (i + 1) with
      | nil => rfl
      | cons q qs =>
        have hlast := List.getLast?_eq_getLast_of_ne_nil (List.cons_ne_nil q qs)
        rw [List.getLast?_cons_cons, hlast]
        rfl
    · rw [ih i (setNewEnemy w s n.pid)]
      cases hqs : walkQualifiers w rnd rest i with
      | nil => rfl
      | cons q qs =>
        have hlast := List.getLast?_eq_getLast_of_ne_nil (List.cons_ne_nil q qs)
        rw [List.getLast?_cons_cons, hlast]
        rfl

lemma walkQualifiers_mem (w : World) (rnd : Nat → Nat → Bool) :
    ∀ (l : List Neighbor) (i : Nat) (n : Neighbor),
      n ∈ walkQualifiers w rnd l i →
      n ∈ l ∧ n.isPlayer = true ∧ w.isFriendly n.pid = false := by
  intro l
  induction l with
  | nil =>
    intro i n h
    exact absurd h (List.not_mem_nil n)
  | cons m rest ih =>
    intro i n h
    simp only [walkQualifiers] at h
    split_ifs at h with hp hf hfh hc
    · obtain ⟨h1, h2, h3⟩ := ih i n h
      exact ⟨List.mem_cons_of_mem m h1, h2, h3⟩
    · obtain ⟨h1, h2, h3⟩ := ih i n h
      exact ⟨List.mem_cons_of_mem m h1, h2, h3⟩
    · obtain ⟨h1, h2, h3⟩ := ih (i + 1) n h
      exact ⟨List.mem_cons_of_mem m h1, h2, h3⟩
    · rcases List.mem_cons.mp h with rfl | h2
      · exact ⟨List.mem_cons_self n rest, by simpa using hp, by simpa using hf⟩
      · obtain ⟨h1, h2, h3⟩ := ih (i + 1) n h2
        exact ⟨List.mem_cons_of_mem m h1, h2, h3⟩
    · rcases List.mem_cons.mp h with rfl | h2
      · exact ⟨List.mem_cons_self n rest, by simpa using hp, by simpa using hf⟩
      · obtain ⟨h1, h2, h3⟩ := ih i n h2
        exact ⟨List.mem_cons_of_mem m h1, h2, h3⟩

/-- C4: the shuffled-neighbor walk of `selectRandomEnemy` does not exit
early — every neighbor that passes the filters (player, not friendly, and
for FakeHumans the chance(2) trial) overwrites the enemy, so the LAST
qualifying neighbor of the walk becomes the enemy and is returned. -/
theorem selectRandomEnemy_last_qualifier (B : BotBehavior) (w : World) (rnd : RandomOracle)
    (s : BotState) (c : Neighbor) (h1 : s.enemy = none)
    (h2 : hasSufficientTroops B w = true)
    (h3 : (walkQualifiers w rnd.chance (rnd.shuffle w.neighbors) 0).getLast? = some c) :
    (∀ x ∈ walkQualifiers w rnd.chance (rnd.shuffle w.neighbors) 0,
      x ∈ rnd.shuffle w.neighbors ∧ x.isPlayer = true ∧ w.isFriendly x.pid = false) ∧
    c ∈ walkQualifiers w rnd.chance (rnd.shuffle w.neighbors) 0 ∧
    selectRandomEnemy B w rnd s = (⟨some c.pid, some w.ticks⟩, some c.pid) := by
  have hmem : c ∈ walkQualifiers w rnd.chance (rnd.shuffle w.neighbors) 0 :=
    mem_of_getLast?_eq h3
  have hprops := walkQualifiers_mem w rnd.chance (rnd.shuffle w.neighbors) 0 c hmem
  refine ⟨fun x hx => walkQualifiers_mem w rnd.chance (rnd.shuffle w.neighbors) 0 x hx,
    hmem, ?_⟩
  unfold selectRandomEnemy
  rw [if_pos h1, if_pos h2]
  have hcore : selectRandomEnemyCore w rnd s = ⟨some c.pid, some w.ticks⟩ := by
    unfold selectRandomEnemyCore
    rw [neighborWalk_eq_qualifiers w rnd.chance (rnd.shuffle w.neighbors) 0 s, h3]
    simp [setNewEnemy]
  rw [hcore]
  simp [enemySanityCheck, hprops.2.2]

/-- Witness for C4: two qualifying adjacent Bots walked in order 1, 2 with
identity shuffle; the second (last) one becomes the enemy. -/
theorem selectRandomEnemy_last_qualifier_w :
    selectRandomEnemy ⟨0, 0, 0⟩
        ⟨0, 1, 1, [⟨1, true, PlayerType.Bot, 3, 1, false⟩,
          ⟨2, true, PlayerType.Bot, 3, 1, false⟩], [], [], fun _ => false⟩
        ⟨fun _ _ => false, 0, fun l => l⟩ ⟨none, none⟩ =
      (⟨some 2, some 0⟩, some 2) :=
  (selectRandomEnemy_last_qualifier ⟨0, 0, 0⟩
    ⟨0, 1, 1, [⟨1, true, PlayerType.Bot, 3, 1, false⟩,
      ⟨2, true, PlayerType.Bot, 3, 1, false⟩], [], [], fun _ => false⟩
    ⟨fun _ _ => false, 0, fun l => l⟩ ⟨none, none⟩
    ⟨2, true, PlayerType.Bot, 3, 1, false⟩ rfl
    (by norm_num [hasSufficientTroops, jsDiv, jsGe]) (by decide)).2.2

end OpenFront
